import Mathlib

/-!
Verification of the core retrieval-pipeline logic of the ba-agent-tool
repository against its design documentation.

Each Python function relevant to the documented properties is shallowly
embedded as an executable Lean definition, keeping the source's names and
control flow; external libraries (Chroma, FAISS, langchain loaders,
aiohttp) are abstracted as explicit parameters or state fields, with the
repository's own orchestration translated faithfully.
-/

/- ========================================================================
   Token Batcher: `create_batches` from src/backend/embeddings/test.py.

   The Python code iterates over `docs`, accumulating a `current_batch`
   and its running token sum `current_tokens`; when adding the next doc
   would exceed `max_tokens_per_batch` AND the current batch is non-empty,
   the current batch is closed and a new one is started with that doc.
   A trailing non-empty batch is appended at the end.  Documents are
   generic: only their token count matters, so the embedding is generic
   over the element type with an explicit token-count function
   (`count_tokens` in the source is tiktoken, an external library).
   ======================================================================== -/

/-- Token sum of one batch (the `current_tokens` bookkeeping of the source,
    recomputed from the batch contents). -/
def batchTokens {α : Type} (tokens : α → Nat) (b : List α) : Nat :=
  (b.map tokens).sum

/-- Concatenation of a list of batches, in batch order then within-batch
    order. -/
def joinBatches {α : Type} : List (List α) → List α
  | [] => []
  | b :: bs => b ++ joinBatches bs

/-- The loop of `create_batches`: remaining docs, current batch, current
    token sum.  Mirrors lines 117-137 of src/backend/embeddings/test.py:
    the `if current_tokens + doc_tokens > max_tokens_per_batch and
    current_batch` test closes the current batch; the final non-empty
    current batch is appended after the loop. -/
def create_batches_go {α : Type} (tokens : α → Nat) (maxT : Nat) :
    List α → List α → Nat → List (List α)
  | [], current, _ =>
      if current.isEmpty then [] else [current]
  | d :: ds, current, curTok =>
      if maxT < curTok + tokens d ∧ current.isEmpty = false then
        current :: create_batches_go tokens maxT ds [d] (tokens d)
      else
        create_batches_go tokens maxT ds (current ++ [d]) (curTok + tokens d)

/-- `create_batches(docs, max_tokens_per_batch)` from
    src/backend/embeddings/test.py, lines 109-142. -/
def create_batches {α : Type} (tokens : α → Nat) (docs : List α) (maxT : Nat) :
    List (List α) :=
  create_batches_go tokens maxT docs [] 0

theorem joinBatches_cons {α : Type} (b : List α) (bs : List (List α)) :
    joinBatches (b :: bs) = b ++ joinBatches bs := rfl

theorem create_batches_go_join {α : Type} (tokens : α → Nat) (maxT : Nat)
    (ds : List α) :
    ∀ current curTok,
      joinBatches (create_batches_go tokens maxT ds current curTok)
        = current ++ ds := by
  induction ds with
  | nil =>
      intro current curTok
      by_cases hc : current.isEmpty
      · simp [create_batches_go, hc, joinBatches,
          List.isEmpty_iff.mp hc]
      · simp [create_batches_go, hc, joinBatches]
  | cons d ds ih =>
      intro current curTok
      by_cases h : maxT < curTok + tokens d ∧ current.isEmpty = false
      · simp only [create_batches_go]
        rw [if_pos h, joinBatches_cons, ih]
        simp
      · simp only [create_batches_go]
        rw [if_neg h, ih]
        simp

/-- Any batch emitted as a closed `current` batch satisfies the bound
    disjunction, provided the loop invariant held for it. -/
theorem emitted_batch_ok {α : Type} (tokens : α → Nat) (maxT : Nat)
    (current : List α) (curTok : Nat)
    (hsum : curTok = batchTokens tokens current)
    (hinv : curTok ≤ maxT ∨ ∃ c, current = [c]) :
    batchTokens tokens current ≤ maxT
      ∨ ∃ c, current = [c] ∧ maxT < tokens c := by
  rcases hinv with hle | ⟨c, rfl⟩
  · exact Or.inl (hsum ▸ hle)
  · by_cases hcle : tokens c ≤ maxT
    · exact Or.inl (by simpa [batchTokens] using hcle)
    · exact Or.inr ⟨c, rfl, Nat.lt_of_not_le hcle⟩

/-- Loop invariant of `create_batches`: assuming the running token sum
    matches the current batch and the current batch is within the limit
    or a singleton, every batch the loop emits is within the limit or a
    singleton whose own token count exceeds the limit. -/
theorem create_batches_go_bound {α : Type} (tokens : α → Nat) (maxT : Nat)
    (ds : List α) :
    ∀ current curTok,
      curTok = batchTokens tokens current →
      (curTok ≤ maxT ∨ ∃ c, current = [c]) →
      ∀ b ∈ create_batches_go tokens maxT ds current curTok,
        batchTokens tokens b ≤ maxT ∨ ∃ c, b = [c] ∧ maxT < tokens c := by
  induction ds with
  | nil =>
      intro current curTok hsum hinv b hb
      by_cases hc : current.isEmpty
      · simp [create_batches_go, hc] at hb
      · simp [create_batches_go, hc] at hb
        rw [hb]
        exact emitted_batch_ok tokens maxT current curTok hsum hinv
  | cons d ds ih =>
      intro current curTok hsum hinv b hb
      by_cases h : maxT < curTok + tokens d ∧ current.isEmpty = false
      · simp only [create_batches_go, if_pos h, List.mem_cons] at hb
        rcases hb with rfl | hb
        · exact emitted_batch_ok tokens maxT _ curTok hsum hinv
        · exact ih [d] (tokens d) (by simp [batchTokens]) (Or.inr ⟨d, rfl⟩) b hb
      · simp only [create_batches_go, if_neg h] at hb
        refine ih (current ++ [d]) (curTok + tokens d) ?_ ?_ b hb
        · simp [batchTokens, hsum]
        · cases current with
          | nil => exact Or.inr ⟨d, by simp⟩
          | cons x xs =>
              left
              rcases Nat.lt_or_ge maxT (curTok + tokens d) with hlt | hge
              · exact absurd ⟨hlt, rfl⟩ h
              · exact hge

/-- C1: For every list of chunks and every positive `max_tokens_per_batch`,
    `create_batches` never produces a batch whose token sum exceeds
    `max_tokens_per_batch`, except that a batch consisting of a single
    chunk whose own token count exceeds the limit is allowed: such an
    oversized chunk is always placed alone in its own batch, and no chunk
    is dropped or split (the batches concatenate back to the input). -/
theorem create_batches_respects_token_limit {α : Type} (tokens : α → Nat)
    (docs : List α) (maxT : Nat) (hpos : 0 < maxT) :
    (∀ b ∈ create_batches tokens docs maxT,
        batchTokens tokens b ≤ maxT ∨ ∃ c, b = [c] ∧ maxT < tokens c)
    ∧ (∀ b ∈ create_batches tokens docs maxT,
        ∀ c ∈ b, maxT < tokens c → b = [c])
    ∧ joinBatches (create_batches tokens docs maxT) = docs := by
  have hbound := create_batches_go_bound tokens maxT docs [] 0
    (by simp [batchTokens]) (Or.inl (Nat.zero_le maxT))
  refine ⟨hbound, ?_, create_batches_go_join tokens maxT docs [] 0⟩
  intro b hb c hc hover
  rcases hbound b hb with hle | ⟨c', hb', _⟩
  · exact absurd (le_trans (List.single_le_sum (by simp) _
      (List.mem_map_of_mem tokens hc)) hle) (Nat.not_le_of_lt hover)
  · subst hb'
    rcases List.mem_singleton.mp hc with rfl
    rfl

/-- Witness for C1 at the spec's own example: chunks of token counts
    [50, 60, 70] with limit 100 (§8 of the design document). -/
theorem create_batches_respects_token_limit_witness :
    0 < 100
    ∧ ((∀ b ∈ create_batches (fun n => n) [50, 60, 70] 100,
          batchTokens (fun n => n) b ≤ 100 ∨ ∃ c, b = [c] ∧ 100 < c)
       ∧ (∀ b ∈ create_batches (fun n => n) [50, 60, 70] 100,
          ∀ c ∈ b, 100 < c → b = [c])
       ∧ joinBatches (create_batches (fun n => n) [50, 60, 70] 100)
          = [50, 60, 70]) :=
  ⟨by decide,
   create_batches_respects_token_limit (fun n => n) [50, 60, 70] 100 (by decide)⟩

/-- C2: concatenating the batches returned by `create_batches`, in batch
    order then within-batch order, yields exactly the original input list
    of chunks: the batcher is order-preserving and loses no chunk. -/
theorem create_batches_lossless {α : Type} (tokens : α → Nat)
    (docs : List α) (maxT : Nat) :
    joinBatches (create_batches tokens docs maxT) = docs :=
  create_batches_go_join tokens maxT docs [] 0

/- ========================================================================
   Rate limiter: class `RateLimiter` from src/main.py, lines 173-193.

   `wait_if_needed` takes the current time, prunes recorded request
   timestamps older than the window, and if the pruned list is full
   (length >= max_requests) computes
   `wait_time = window_seconds - (now - requests[0]) + 1` and sleeps for
   it when positive.  It then appends `now` -- the time sampled BEFORE the
   sleep -- to the recorded list.  Times are modelled as rationals
   (`time.time()` is real-valued); the returned second component is the
   duration slept (0 when no sleep happened).
   ======================================================================== -/

structure RateLimiter where
  max_requests : Nat
  window_seconds : Nat
  requests : List ℚ
deriving DecidableEq

/-- The pruning step `[t for t in self.requests if now - t < window_seconds]`. -/
def pruned_requests (rl : RateLimiter) (now : ℚ) : List ℚ :=
  rl.requests.filter (fun t => now - t < (rl.window_seconds : ℚ))

/-- `RateLimiter.wait_if_needed` (src/main.py lines 180-193): returns the
    updated limiter state and the time slept. -/
def wait_if_needed (rl : RateLimiter) (now : ℚ) : RateLimiter × ℚ :=
  let pruned := pruned_requests rl now
  let slept :=
    if rl.max_requests ≤ pruned.length then
      let w := (rl.window_seconds : ℚ) - (now - pruned.headD 0) + 1
      if 0 < w then w else 0
    else 0
  (RateLimiter.mk rl.max_requests rl.window_seconds (pruned ++ [now]), slept)

/-- Issue a sequence of calls to `wait_if_needed` at the given times,
    threading the limiter state. -/
def run_calls (rl : RateLimiter) (times : List ℚ) : RateLimiter :=
  times.foldl (fun s t => (wait_if_needed s t).1) rl

/-- Number of recorded timestamps lying in the window [lo, lo + w). -/
def recorded_in_window (reqs : List ℚ) (lo : ℚ) (w : Nat) : Nat :=
  (reqs.filter (fun t => lo ≤ t ∧ t - lo < (w : ℚ))).length

/-- C3 counterexample: with capacity R = 2 and window W = 60, three
    back-to-back calls (all sampling `now = 0`) leave THREE timestamps
    recorded inside one sliding 60-second interval, because the third call
    appends its pre-sleep arrival time after waiting.  This refutes the
    claim that at no point more than R requests are recorded in-flight
    within any sliding W-second interval. -/
theorem rate_limiter_window_overflow_counterexample :
    recorded_in_window (run_calls (RateLimiter.mk 2 60 []) [0, 0, 0]).requests 0 60 = 3
    ∧ ¬ recorded_in_window (run_calls (RateLimiter.mk 2 60 []) [0, 0, 0]).requests 0 60 ≤ 2 := by
  have hrun : run_calls (RateLimiter.mk 2 60 []) [0, 0, 0]
      = RateLimiter.mk 2 60 [0, 0, 0] := by
    norm_num [run_calls, wait_if_needed, pruned_requests, List.filter]
  rw [hrun]
  constructor
  · norm_num [recorded_in_window, List.filter]
  · norm_num [recorded_in_window, List.filter]

/-- C3 as amended: when the pruned window is full, `wait_if_needed` delays
    the caller for `window_seconds - (now - oldest) + 1` seconds, which is
    positive and lasts until the oldest recorded timestamp has aged out of
    the window (`window_seconds < (now + slept) - oldest`); the state
    afterwards records the pruned timestamps plus the pre-sleep arrival
    time `now` (which is why the recorded-count bound of the original
    claim fails). -/
theorem rate_limiter_delays_until_oldest_ages_out (rl : RateLimiter) (now t0 : ℚ)
    (hhead : (pruned_requests rl now).head? = some t0)
    (hfull : rl.max_requests ≤ (pruned_requests rl now).length) :
    (wait_if_needed rl now).2 = (rl.window_seconds : ℚ) - (now - t0) + 1
    ∧ 0 < (wait_if_needed rl now).2
    ∧ (rl.window_seconds : ℚ) < (now + (wait_if_needed rl now).2) - t0
    ∧ (wait_if_needed rl now).1.requests = pruned_requests rl now ++ [now] := by
  have hmem : t0 ∈ pruned_requests rl now := List.mem_of_mem_head? hhead
  have hage : now - t0 < (rl.window_seconds : ℚ) := by
    have := List.mem_filter.mp hmem
    exact of_decide_eq_true this.2
  have hw : 0 < (rl.window_seconds : ℚ) - (now - t0) + 1 := by linarith
  have hD : (pruned_requests rl now).headD 0 = t0 := by
    cases hp : pruned_requests rl now with
    | nil => simp [hp] at hhead
    | cons a l =>
        rw [hp] at hhead
        simp at hhead
        simp [hp, hhead]
  have hs : (wait_if_needed rl now).2
      = (rl.window_seconds : ℚ) - (now - t0) + 1 := by
    simp only [wait_if_needed, if_pos hfull, hD]
    rw [if_pos hw]
  refine ⟨hs, hs ▸ hw, ?_, rfl⟩
  rw [hs]
  linarith

/-- Witness for C3's amended theorem: R = 1, W = 60, one request recorded
    at time 0, next call at time 30: the caller sleeps 31 seconds, after
    which the recorded timestamp 0 is 61 > 60 seconds old. -/
theorem rate_limiter_delays_until_oldest_ages_out_witness :
    (pruned_requests (RateLimiter.mk 1 60 [0]) 30).head? = some 0
    ∧ (1 ≤ (pruned_requests (RateLimiter.mk 1 60 [0]) 30).length)
    ∧ ((wait_if_needed (RateLimiter.mk 1 60 [0]) 30).2 = (60 : ℚ) - (30 - 0) + 1
       ∧ 0 < (wait_if_needed (RateLimiter.mk 1 60 [0]) 30).2
       ∧ (60 : ℚ) < (30 + (wait_if_needed (RateLimiter.mk 1 60 [0]) 30).2) - 0
       ∧ (wait_if_needed (RateLimiter.mk 1 60 [0]) 30).1.requests
          = pruned_requests (RateLimiter.mk 1 60 [0]) 30 ++ [30]) :=
  ⟨by norm_num [pruned_requests, List.filter],
   by norm_num [pruned_requests, List.filter],
   rate_limiter_delays_until_oldest_ages_out (RateLimiter.mk 1 60 [0]) 30 0
     (by norm_num [pruned_requests, List.filter])
     (by norm_num [pruned_requests, List.filter])⟩

/- ========================================================================
   Cloud LLM gateway: `call_gemini_api_with_retry` from src/main.py,
   lines 399-470.

   The network is abstracted as an environment `env : Nat → AttemptOutcome`
   giving the outcome of the HTTP POST of each loop iteration.  The Python
   control flow per iteration `attempt`:
     - status 200: if the JSON has a first candidate with a non-empty
       `content.parts`, return `parts[0].text`; otherwise raise
       "Empty response from Gemini API";
     - status 429: if `attempt < max_retries - 1`, sleep `2**attempt * 2`
       and continue; else raise "Rate limit exceeded - please try again
       later";
     - status 403: raise "Invalid API key or insufficient permissions";
     - other status: raise "API error {status}: {body}";
     - timeout: if `attempt < max_retries - 1`, sleep `2**attempt * 1` and
       continue; else raise "Request timeout - please try again".
   Every raise inside the loop body is intercepted by the final
   `except Exception` clause, which retries (sleep `2**attempt * 2`) only
   when `attempt < max_retries - 1` AND the lower-cased message contains
   "rate limit"; otherwise it re-raises.  If the loop runs out of
   iterations without returning (only possible for max_retries = 0) the
   Python function returns None, modelled as `CallResult.fellThrough`.
   ======================================================================== -/

/-- Lower-cased character list of a string (Python `str.lower()`). -/
def lcChars (s : String) : List Char := s.toList.map Char.toLower

def matchesAt : List Char → List Char → Bool
  | [], _ => true
  | _ :: _, [] => false
  | p :: ps, c :: cs => p == c && matchesAt ps cs

def containsChars (pat : List Char) : List Char → Bool
  | [] => matchesAt pat []
  | c :: cs => matchesAt pat (c :: cs) || containsChars pat cs

/-- The `"rate limit" in str(e).lower()` test of src/main.py line 465. -/
def mentions_rate_limit (msg : String) : Bool :=
  containsChars (lcChars "rate limit") (lcChars msg)

/-- One generated candidate of a Gemini response: the texts of its
    `content.parts` (empty list when `content` or `parts` is missing or
    empty). -/
structure Candidate where
  parts : List String
deriving DecidableEq

/-- Outcome of the HTTP POST of one attempt. -/
inductive AttemptOutcome
  | ok200 (candidates : List Candidate)
  | rateLimited
  | forbidden
  | otherStatus (code : Nat) (body : String)
  | timedOut
deriving DecidableEq

/-- The candidate-extraction logic of lines 432-436: first candidate's
    first part text, if any. -/
def extractText : List Candidate → Option String
  | [] => none
  | c :: _ => c.parts.head?

/-- Result of the whole call: returned text, raised message, or the
    Python fall-off-the-loop `return None`. -/
inductive CallResult
  | success (text : String)
  | failure (msg : String)
  | fellThrough
deriving DecidableEq

/-- Observable trace of one call: result, number of attempts performed,
    and total seconds slept in backoff. -/
structure CallTrace where
  result : CallResult
  attempts : Nat
  totalSleep : Nat
deriving DecidableEq

/-- The retry loop of `call_gemini_api_with_retry`, with `fuel` the number
    of remaining iterations, `a` the current attempt index, and `slept`
    the backoff seconds accumulated so far. -/
def call_gemini_go (env : Nat → AttemptOutcome) (maxRetries : Nat) :
    Nat → Nat → Nat → CallTrace
  | 0, a, slept => CallTrace.mk CallResult.fellThrough a slept
  | fuel + 1, a, slept =>
    match env a with
    | AttemptOutcome.ok200 cands =>
        match extractText cands with
        | some t => CallTrace.mk (CallResult.success t) (a + 1) slept
        | none =>
            if a + 1 < maxRetries
                ∧ mentions_rate_limit "Empty response from Gemini API" = true then
              call_gemini_go env maxRetries fuel (a + 1) (slept + 2 ^ a * 2)
            else
              CallTrace.mk (CallResult.failure "Empty response from Gemini API")
                (a + 1) slept
    | AttemptOutcome.rateLimited =>
        if a + 1 < maxRetries then
          call_gemini_go env maxRetries fuel (a + 1) (slept + 2 ^ a * 2)
        else
          CallTrace.mk
            (CallResult.failure "Rate limit exceeded - please try again later")
            (a + 1) slept
    | AttemptOutcome.forbidden =>
        if a + 1 < maxRetries
            ∧ mentions_rate_limit "Invalid API key or insufficient permissions" = true then
          call_gemini_go env maxRetries fuel (a + 1) (slept + 2 ^ a * 2)
        else
          CallTrace.mk
            (CallResult.failure "Invalid API key or insufficient permissions")
            (a + 1) slept
    | AttemptOutcome.otherStatus code body =>
        if a + 1 < maxRetries
            ∧ mentions_rate_limit ("API error " ++ toString code ++ ": " ++ body) = true then
          call_gemini_go env maxRetries fuel (a + 1) (slept + 2 ^ a * 2)
        else
          CallTrace.mk
            (CallResult.failure ("API error " ++ toString code ++ ": " ++ body))
            (a + 1) slept
    | AttemptOutcome.timedOut =>
        if a + 1 < maxRetries then
          call_gemini_go env maxRetries fuel (a + 1) (slept + 2 ^ a * 1)
        else
          CallTrace.mk (CallResult.failure "Request timeout - please try again")
            (a + 1) slept

/-- `call_gemini_api_with_retry` (src/main.py lines 399-470); the source's
    default is `max_retries = 3`. -/
def call_gemini_api_with_retry (env : Nat → AttemptOutcome)
    (maxRetries : Nat) : CallTrace :=
  call_gemini_go env maxRetries maxRetries 0 0

/-- C4: a call whose first two attempts return HTTP 429 and whose third
    attempt succeeds with a non-empty candidate returns the successful
    text, performs exactly three attempts, and sleeps exactly the sum of
    the first two exponential backoff delays (2^0*2 + 2^1*2 = 6 seconds,
    the base delay doubling each attempt). -/
theorem gemini_429_twice_then_success (env : Nat → AttemptOutcome)
    (cands : List Candidate) (t : String)
    (h0 : env 0 = AttemptOutcome.rateLimited)
    (h1 : env 1 = AttemptOutcome.rateLimited)
    (h2 : env 2 = AttemptOutcome.ok200 cands)
    (ht : extractText cands = some t) :
    call_gemini_api_with_retry env 3
      = CallTrace.mk (CallResult.success t) 3 (2 ^ 0 * 2 + 2 ^ 1 * 2) := by
  simp [call_gemini_api_with_retry, call_gemini_go, h0, h1, h2, ht]

/-- Concrete environment for the C4 witness: 429, 429, then a successful
    response whose first candidate carries one text part. -/
def envC4 : Nat → AttemptOutcome := fun n =>
  match n with
  | 0 => AttemptOutcome.rateLimited
  | 1 => AttemptOutcome.rateLimited
  | _ => AttemptOutcome.ok200 [Candidate.mk ["answer text"]]

/-- Witness for C4 at the concrete environment `envC4`. -/
theorem gemini_429_twice_then_success_witness :
    envC4 0 = AttemptOutcome.rateLimited
    ∧ envC4 1 = AttemptOutcome.rateLimited
    ∧ envC4 2 = AttemptOutcome.ok200 [Candidate.mk ["answer text"]]
    ∧ extractText [Candidate.mk ["answer text"]] = some "answer text"
    ∧ call_gemini_api_with_retry envC4 3
        = CallTrace.mk (CallResult.success "answer text") 3 (2 ^ 0 * 2 + 2 ^ 1 * 2) :=
  ⟨rfl, rfl, rfl, rfl,
   gemini_429_twice_then_success envC4 [Candidate.mk ["answer text"]]
     "answer text" rfl rfl rfl rfl⟩

/-- C5: a call whose first attempt returns HTTP 403 performs exactly one
    attempt, sleeps for no backoff at all, and fails immediately with the
    permission-denied message (the catch-all handler does not retry it
    because the message does not mention rate limiting). -/
theorem gemini_403_fails_immediately (env : Nat → AttemptOutcome)
    (maxRetries : Nat)
    (h0 : env 0 = AttemptOutcome.forbidden) (hm : 0 < maxRetries) :
    call_gemini_api_with_retry env maxRetries
      = CallTrace.mk
          (CallResult.failure "Invalid API key or insufficient permissions") 1 0 := by
  obtain ⟨k, rfl⟩ : ∃ k, maxRetries = k + 1 :=
    ⟨maxRetries - 1, (Nat.succ_pred_eq_of_pos hm).symm⟩
  have hmr : mentions_rate_limit "Invalid API key or insufficient permissions"
      = false := by decide
  simp [call_gemini_api_with_retry, call_gemini_go, h0, hmr]

/-- Constantly-403 environment for the C5 witness. -/
def envC5 : Nat → AttemptOutcome := fun _ => AttemptOutcome.forbidden

/-- Witness for C5 at the concrete environment `envC5` with the source's
    default of three attempts. -/
theorem gemini_403_fails_immediately_witness :
    envC5 0 = AttemptOutcome.forbidden ∧ 0 < 3
    ∧ call_gemini_api_with_retry envC5 3
        = CallTrace.mk
            (CallResult.failure "Invalid API key or insufficient permissions") 1 0 :=
  ⟨rfl, by decide, gemini_403_fails_immediately envC5 3 rfl (by decide)⟩

/-- Environment for C6: the first attempt returns HTTP 200 with an empty
    candidate list; every later attempt would succeed. -/
def envC6 : Nat → AttemptOutcome := fun n =>
  match n with
  | 0 => AttemptOutcome.ok200 []
  | _ => AttemptOutcome.ok200 [Candidate.mk ["recovered"]]

/-- C6 counterexample: a 200 response with no candidate raises "Empty
    response from Gemini API", and because that message does not contain
    "rate limit" the catch-all handler re-raises it at once: the call
    performs a single attempt and surfaces the failure even though two
    attempts remained (and the next attempt would have succeeded).  This
    refutes the claim that an empty response is retried under the 429
    backoff policy while attempts remain. -/
theorem gemini_empty_response_not_retried_counterexample :
    call_gemini_api_with_retry envC6 3
      = CallTrace.mk (CallResult.failure "Empty response from Gemini API") 1 0
    ∧ ¬ 2 ≤ (call_gemini_api_with_retry envC6 3).attempts
    ∧ 1 < 3 := by
  refine ⟨?_, ?_, by decide⟩ <;> decide

/-- C6 as amended: an HTTP 200 response whose payload has no candidate
    with text is treated as an empty-response failure that is surfaced to
    the caller immediately on the attempt it occurs (one attempt, no
    backoff sleep), NOT retried, for any positive attempt ceiling: the
    generic exception handler retries only messages mentioning rate
    limiting. -/
theorem gemini_empty_response_fails_immediately (env : Nat → AttemptOutcome)
    (cands : List Candidate) (maxRetries : Nat)
    (h0 : env 0 = AttemptOutcome.ok200 cands)
    (he : extractText cands = none) (hm : 0 < maxRetries) :
    call_gemini_api_with_retry env maxRetries
      = CallTrace.mk (CallResult.failure "Empty response from Gemini API") 1 0 := by
  obtain ⟨k, rfl⟩ : ∃ k, maxRetries = k + 1 :=
    ⟨maxRetries - 1, (Nat.succ_pred_eq_of_pos hm).symm⟩
  have hmr : mentions_rate_limit "Empty response from Gemini API" = false := by
    decide
  simp [call_gemini_api_with_retry, call_gemini_go, h0, he, hmr]

/-- Witness for C6's amended theorem at the concrete environment `envC6`. -/
theorem gemini_empty_response_fails_immediately_witness :
    envC6 0 = AttemptOutcome.ok200 []
    ∧ extractText ([] : List Candidate) = none
    ∧ 0 < 3
    ∧ call_gemini_api_with_retry envC6 3
        = CallTrace.mk (CallResult.failure "Empty response from Gemini API") 1 0 :=
  ⟨rfl, rfl, by decide,
   gemini_empty_response_fails_immediately envC6 [] 3 rfl rfl (by decide)⟩

/- ========================================================================
   Documents and embedding records.

   A langchain Document carries `page_content` and metadata; the only
   metadata field the repository reads is `source` (the originating file
   path), so a record is modelled as that pair.
   ======================================================================== -/

structure CDoc where
  page_content : String
  source : String
deriving DecidableEq

/- ========================================================================
   FAISS vector store: `build_vectordb` from src/backend/pages/rag_cag.py,
   lines 70-91.

   The on-disk state at `{directory_name}_vectorstore` is modelled as
   `saved : Option (List CDoc)` (`none` = the path does not exist), plus
   an environment flag `loadOk` saying whether `FAISS.load_local` on the
   persisted data succeeds (corruption / incompatible format makes it
   throw).  The Python code: if the path exists, try to load and
   `add_documents(chunks)`; if loading throws, warn and build a NEW store
   from `chunks` alone; if the path does not exist, build a new store from
   `chunks`; finally `save_local` persists whatever store resulted.
   ======================================================================== -/

structure FaissState where
  saved : Option (List CDoc)
  loadOk : Bool
deriving DecidableEq

/-- `build_vectordb(chunks, directory_name)` (src/backend/pages/rag_cag.py
    lines 70-91): the persisted contents after the final `save_local`. -/
def build_vectordb (st : FaissState) (chunks : List CDoc) : FaissState :=
  match st.saved with
  | some old =>
      if st.loadOk then FaissState.mk (some (old ++ chunks)) st.loadOk
      else FaissState.mk (some chunks) st.loadOk
  | none => FaissState.mk (some chunks) st.loadOk

/-- C7 counterexample: when the persisted store exists but loading it
    fails, `build_vectordb` builds a fresh store from the new chunks only
    and saves it over the old path: the previously persisted record
    ("old-text" from old.pdf) is no longer present afterwards.  This
    refutes the claim that a mutation is append-only "including when
    loading the existing store fails". -/
theorem build_vectordb_loses_records_on_load_failure :
    (build_vectordb (FaissState.mk (some [CDoc.mk "old-text" "old.pdf"]) false)
        [CDoc.mk "new-text" "new.pdf"]).saved
      = some [CDoc.mk "new-text" "new.pdf"]
    ∧ CDoc.mk "old-text" "old.pdf" ∉ [CDoc.mk "new-text" "new.pdf"] := by
  constructor
  · rfl
  · decide

/-- C7 as amended: `build_vectordb` is append-only whenever the existing
    persisted store loads successfully (every previously persisted record
    is still present afterwards, followed by the new chunks); but when
    loading the existing store fails, the store is rebuilt from the new
    chunks alone and saved over the old path, losing the previously
    persisted records (with a warning). -/
theorem build_vectordb_append_only_when_load_succeeds (st : FaissState)
    (old chunks : List CDoc) (hsaved : st.saved = some old) :
    (st.loadOk = true →
      (build_vectordb st chunks).saved = some (old ++ chunks)
      ∧ ∀ r ∈ old, ∃ l, (build_vectordb st chunks).saved = some l ∧ r ∈ l)
    ∧ (st.loadOk = false →
      (build_vectordb st chunks).saved = some chunks) := by
  constructor
  · intro hok
    have h : (build_vectordb st chunks).saved = some (old ++ chunks) := by
      simp [build_vectordb, hsaved, hok]
    exact ⟨h, fun r hr => ⟨old ++ chunks, h, List.mem_append_left chunks hr⟩⟩
  · intro hko
    simp [build_vectordb, hsaved, hko]

/-- Witness for C7's amended theorem: a healthy store holding one record
    receives one new chunk and keeps both. -/
theorem build_vectordb_append_only_when_load_succeeds_witness :
    (FaissState.mk (some [CDoc.mk "old-text" "old.pdf"]) true).saved
      = some [CDoc.mk "old-text" "old.pdf"]
    ∧ ((FaissState.mk (some [CDoc.mk "old-text" "old.pdf"]) true).loadOk = true →
        (build_vectordb (FaissState.mk (some [CDoc.mk "old-text" "old.pdf"]) true)
            [CDoc.mk "new-text" "new.pdf"]).saved
          = some ([CDoc.mk "old-text" "old.pdf"] ++ [CDoc.mk "new-text" "new.pdf"])
        ∧ ∀ r ∈ [CDoc.mk "old-text" "old.pdf"],
            ∃ l, (build_vectordb
                (FaissState.mk (some [CDoc.mk "old-text" "old.pdf"]) true)
                [CDoc.mk "new-text" "new.pdf"]).saved = some l ∧ r ∈ l)
    ∧ ((FaissState.mk (some [CDoc.mk "old-text" "old.pdf"]) true).loadOk = false →
        (build_vectordb (FaissState.mk (some [CDoc.mk "old-text" "old.pdf"]) true)
            [CDoc.mk "new-text" "new.pdf"]).saved
          = some [CDoc.mk "new-text" "new.pdf"]) :=
  ⟨rfl,
   (build_vectordb_append_only_when_load_succeeds
      (FaissState.mk (some [CDoc.mk "old-text" "old.pdf"]) true)
      [CDoc.mk "old-text" "old.pdf"] [CDoc.mk "new-text" "new.pdf"] rfl).1,
   (build_vectordb_append_only_when_load_succeeds
      (FaissState.mk (some [CDoc.mk "old-text" "old.pdf"]) true)
      [CDoc.mk "old-text" "old.pdf"] [CDoc.mk "new-text" "new.pdf"] rfl).2⟩

/- ========================================================================
   Chroma ingestion: `get_existing_sources`, `create_or_update_vector_store`
   and `process_all_documents` from src/backend/embeddings/test.py,
   lines 86-256.

   The Chroma collection is modelled as the list of its stored records;
   `db.get()["metadatas"]` yields their metadata, of which the code reads
   the `source` field.  Loading each document file (`create_openai_embeddings`
   via Docx2txtLoader / PyPDFLoader + CharacterTextSplitter) is an external
   effect, abstracted as `loadChunks : String → List CDoc`; the langchain
   loaders stamp each produced chunk's metadata `source` with the path they
   were given, which becomes an explicit hypothesis where needed.
   `create_or_update_vector_store` adds the new chunks to the collection
   (in `create_batches` batches, whose concatenation is the chunk list
   itself by `create_batches_go_join`), so the persisted state moves from
   `recs` to `recs ++ newDocs`; when nothing new is produced the state is
   unchanged.
   ======================================================================== -/

/-- `get_existing_sources(store_name)` (lines 86-106): every `source`
    metadata value of the stored records (the Python set is modelled as
    the list of its elements; only membership is used). -/
def get_existing_sources : Option (List CDoc) → List String
  | none => []
  | some recs => recs.map CDoc.source

/-- The `new_files = [f for f in doc_files if f not in existing_sources]`
    filter of `process_all_documents` (line 211). -/
def new_files_for (saved : Option (List CDoc)) (doc_files : List String) :
    List String :=
  doc_files.filter (fun f => !(get_existing_sources saved).contains f)

/-- Chunks of all newly processed files, in file order (the `all_docs`
    accumulation of lines 234-246). -/
def chunksOfFiles (loadChunks : String → List CDoc) : List String → List CDoc
  | [] => []
  | f :: fs => loadChunks f ++ chunksOfFiles loadChunks fs

/-- `process_all_documents(store_name)` (lines 196-256), seen as a
    transformer of the persisted collection contents: skip files whose
    source is already stored, load the rest, and create or update the
    store with the resulting chunks (no change when nothing new was
    produced). -/
def process_all_documents (saved : Option (List CDoc))
    (doc_files : List String) (loadChunks : String → List CDoc) :
    Option (List CDoc) :=
  let allDocs := chunksOfFiles loadChunks (new_files_for saved doc_files)
  if allDocs.isEmpty then saved
  else
    match saved with
    | none => some allDocs
    | some recs => some (recs ++ allDocs)

theorem mem_chunksOfFiles (loadChunks : String → List CDoc) (files : List String)
    (c : CDoc) :
    c ∈ chunksOfFiles loadChunks files ↔ ∃ f ∈ files, c ∈ loadChunks f := by
  induction files with
  | nil => simp [chunksOfFiles]
  | cons f fs ih => simp [chunksOfFiles, ih]

theorem chunksOfFiles_eq_nil (loadChunks : String → List CDoc)
    (files : List String) (h : ∀ f ∈ files, loadChunks f = []) :
    chunksOfFiles loadChunks files = [] := by
  induction files with
  | nil => rfl
  | cons f fs ih =>
      simp [chunksOfFiles, h f (List.mem_cons_self f fs),
        ih (fun g hg => h g (List.mem_cons_of_mem f hg))]

/-- Files already recorded in the store are never among the files a run
    processes. -/
theorem existing_sources_skipped (saved : Option (List CDoc))
    (doc_files : List String) :
    ∀ f ∈ get_existing_sources saved, f ∉ new_files_for saved doc_files := by
  intro f hf hmem
  have h2 := (List.mem_filter.mp hmem).2
  simp at h2
  exact h2 hf

/-- C8: ingestion is idempotent by source-path dedup.  Assuming the
    langchain loaders stamp each produced chunk's `source` metadata with
    the path they load (their documented behaviour), a source path already
    returned by `get_existing_sources` is never among the files a run
    processes, and running `process_all_documents` a second time against
    the collection produced by a first run leaves the stored records
    unchanged: no duplicate embedding records are created for an already
    ingested source. -/
theorem ingestion_idempotent_by_source_dedup (st0 : Option (List CDoc))
    (files : List String) (loadChunks : String → List CDoc)
    (hsrc : ∀ p, ∀ c ∈ loadChunks p, c.source = p) :
    (∀ f ∈ get_existing_sources st0, f ∉ new_files_for st0 files)
    ∧ process_all_documents (process_all_documents st0 files loadChunks)
        files loadChunks
      = process_all_documents st0 files loadChunks := by
  refine ⟨existing_sources_skipped st0 files, ?_⟩
  by_cases hA : (chunksOfFiles loadChunks (new_files_for st0 files)).isEmpty
  · have h1 : process_all_documents st0 files loadChunks = st0 := by
      simp [process_all_documents, hA]
    rw [h1]
    exact h1
  · set A := chunksOfFiles loadChunks (new_files_for st0 files) with hAdef
    have hst1 : process_all_documents st0 files loadChunks
        = some (st0.getD [] ++ A) := by
      cases st0 <;> simp [process_all_documents, hA, hAdef]
    have hsub : ∀ f ∈ new_files_for (some (st0.getD [] ++ A)) files,
        loadChunks f = [] := by
      intro f hf
      by_contra hne
      obtain ⟨c, hc⟩ := List.exists_mem_of_ne_nil (loadChunks f) hne
      have hfin : f ∈ files := (List.mem_filter.mp hf).1
      have hnot : f ∉ get_existing_sources (some (st0.getD [] ++ A)) := by
        have h2 := (List.mem_filter.mp hf).2
        simp [get_existing_sources] at h2 ⊢
        exact h2
      have hnot0 : f ∉ get_existing_sources st0 := by
        intro hf0
        apply hnot
        cases st0 with
        | none => simp [get_existing_sources] at hf0
        | some recs =>
            simp only [get_existing_sources, Option.getD] at hf0 ⊢
            rw [List.map_append]
            exact List.mem_append_left _ hf0
      have hfnew : f ∈ new_files_for st0 files := by
        refine List.mem_filter.mpr ⟨hfin, ?_⟩
        simp
        exact hnot0
      have hcA : c ∈ A := by
        rw [hAdef]
        exact (mem_chunksOfFiles loadChunks _ c).mpr ⟨f, hfnew, hc⟩
      apply hnot
      simp [get_existing_sources]
      exact Or.inr ⟨c, hcA, hsrc f c hc⟩
    have hnil : chunksOfFiles loadChunks
        (new_files_for (some (st0.getD [] ++ A)) files) = [] :=
      chunksOfFiles_eq_nil _ _ hsub
    rw [hst1]
    simp [process_all_documents, hnil]

/-- Loader stub for the C8 witness: every file yields one chunk whose
    `source` is the file path. -/
def loadChunksW : String → List CDoc := fun p => [CDoc.mk "chunk" p]

/-- Witness for C8: ingesting [a.pdf, b.docx] into an empty collection and
    then running ingestion again adds nothing the second time. -/
theorem ingestion_idempotent_by_source_dedup_witness :
    (∀ p, ∀ c ∈ loadChunksW p, c.source = p)
    ∧ ((∀ f ∈ get_existing_sources none, f ∉ new_files_for none ["a.pdf", "b.docx"])
       ∧ process_all_documents
           (process_all_documents none ["a.pdf", "b.docx"] loadChunksW)
           ["a.pdf", "b.docx"] loadChunksW
         = process_all_documents none ["a.pdf", "b.docx"] loadChunksW) :=
  ⟨fun p c hc => by
      rcases List.mem_singleton.mp hc with rfl
      rfl,
   ingestion_idempotent_by_source_dedup none ["a.pdf", "b.docx"] loadChunksW
     (fun p c hc => by
        rcases List.mem_singleton.mp hc with rfl
        rfl)⟩

/- ========================================================================
   Document Loader: `process_document` from src/backend/pages/rag_cag.py,
   lines 38-56, and the loader selection in `create_openai_embeddings`
   from src/backend/embeddings/test.py, lines 60-66.

   `process_document` computes `Path(file_path).suffix.lower()` and picks
   PyPDFLoader for ".pdf", CSVLoader for ".csv", UnstructuredExcelLoader
   for ".xlsx", and DEFAULTS TO TextLoader for every other extension; the
   selected loader's `load()` result is returned, with any loading error
   reported and converted to an empty list.  The loaders themselves are
   external, abstracted as `run : LoaderKind → String → Except String
   (List CDoc)`.  `create_openai_embeddings` instead accepts only paths
   ending in ".docx" or ".pdf" and raises `ValueError("Unsupported file
   type: ...")` for everything else.  `Path(...).suffix` is modelled
   character-by-character: the last path component's substring from its
   last dot, empty when the only dot is the leading character.
   ======================================================================== -/

def takeUntilSlashRev : List Char → List Char
  | [] => []
  | c :: cs => if c == '/' then [] else c :: takeUntilSlashRev cs

/-- Last `/`-separated component of a path (`Path(...).name`). -/
def lastComponentChars (cs : List Char) : List Char :=
  (takeUntilSlashRev cs.reverse).reverse

def suffixFromLastDot : List Char → Option (List Char)
  | [] => none
  | c :: cs =>
      match suffixFromLastDot cs with
      | some s => some s
      | none => if c == '.' then some (c :: cs) else none

/-- `Path(file_path).suffix`: the final extension of the last path
    component, including its dot; empty when there is no dot past the
    first character. -/
def path_suffix (p : String) : String :=
  match lastComponentChars p.toList with
  | [] => ""
  | _ :: rest =>
      match suffixFromLastDot rest with
      | some s => String.mk s
      | none => ""

/-- Python `str.lower()`. -/
def lowerStr (s : String) : String := String.mk (s.toList.map Char.toLower)

/-- Python `str.endswith(suf)`. -/
def ends_with (s suf : String) : Bool :=
  matchesAt suf.toList.reverse s.toList.reverse

/-- The langchain loader classes `process_document` can select. -/
inductive LoaderKind
  | pdf
  | csv
  | xlsx
  | text
deriving DecidableEq

/-- The extension dispatch of `process_document` (src/backend/pages/
    rag_cag.py lines 40-50): everything that is not .pdf/.csv/.xlsx falls
    through to `TextLoader`. -/
def loader_for (file_path : String) : LoaderKind :=
  let ext := lowerStr (path_suffix file_path)
  if ext = ".pdf" then LoaderKind.pdf
  else if ext = ".csv" then LoaderKind.csv
  else if ext = ".xlsx" then LoaderKind.xlsx
  else LoaderKind.text

/-- `process_document(file_path)` (lines 38-56): run the selected loader;
    a loader exception is reported via `st.error` and converted to an
    empty document list. -/
def process_document (run : LoaderKind → String → Except String (List CDoc))
    (file_path : String) : List CDoc :=
  match run (loader_for file_path) file_path with
  | Except.ok docs => docs
  | Except.error _ => []

/-- The loader classes `create_openai_embeddings` can select. -/
inductive EmbLoader
  | docx2txt
  | pypdf
deriving DecidableEq

/-- The extension dispatch of `create_openai_embeddings`
    (src/backend/embeddings/test.py lines 61-66): only `.docx` and `.pdf`
    are accepted; everything else raises
    `ValueError("Unsupported file type: ...")`. -/
def create_openai_embeddings_loader (doc_path : String) :
    Except String EmbLoader :=
  if ends_with doc_path ".docx" then Except.ok EmbLoader.docx2txt
  else if ends_with doc_path ".pdf" then Except.ok EmbLoader.pypdf
  else Except.error ("Unsupported file type: " ++ doc_path)

/-- Loader environment stub: every loader returns one document carrying
    the path it was given as source. -/
def run_stub : LoaderKind → String → Except String (List CDoc) :=
  fun _ p => Except.ok [CDoc.mk "data" p]

/-- C9 counterexample: for the unrecognized extension ".xyz",
    `process_document` does NOT fail with an UnsupportedFormat error: it
    silently routes the file to the plain-text loader and returns that
    loader's documents.  Conversely `create_openai_embeddings` rejects
    "notes.txt" — a plain-text file the claim counts as recognized — with
    its unsupported-file-type error.  Both directions of the claimed
    contract fail on the code. -/
theorem unsupported_extension_not_rejected_counterexample :
    loader_for "report.xyz" = LoaderKind.text
    ∧ process_document run_stub "report.xyz" = [CDoc.mk "data" "report.xyz"]
    ∧ process_document run_stub "report.xyz" ≠ []
    ∧ create_openai_embeddings_loader "notes.txt"
        = Except.error "Unsupported file type: notes.txt" := by
  refine ⟨by decide, rfl, by decide, rfl⟩

/-- C9 as amended: `process_document` recognizes .pdf/.csv/.xlsx
    explicitly and routes every other (lower-cased) extension to the
    plain-text loader, returning whatever documents that loader yields —
    it never raises an UnsupportedFormat error (a loader failure is
    converted to an empty list); the unsupported-file-type rejection
    exists only in `create_openai_embeddings`, which rejects every path
    ending in neither .docx nor .pdf. -/
theorem document_loader_defaults_to_text (run : LoaderKind → String →
      Except String (List CDoc)) (p : String) (docs : List CDoc)
    (hpdf : lowerStr (path_suffix p) ≠ ".pdf")
    (hcsv : lowerStr (path_suffix p) ≠ ".csv")
    (hxlsx : lowerStr (path_suffix p) ≠ ".xlsx")
    (hok : run LoaderKind.text p = Except.ok docs)
    (hdocx : ends_with p ".docx" = false)
    (hpdf2 : ends_with p ".pdf" = false) :
    loader_for p = LoaderKind.text
    ∧ process_document run p = docs
    ∧ create_openai_embeddings_loader p
        = Except.error ("Unsupported file type: " ++ p) := by
  have hl : loader_for p = LoaderKind.text := by
    simp [loader_for, hpdf, hcsv, hxlsx]
  refine ⟨hl, ?_, ?_⟩
  · simp [process_document, hl, hok]
  · simp [create_openai_embeddings_loader, hdocx, hpdf2]

/-- Witness for C9's amended theorem at the path "report.xyz". -/
theorem document_loader_defaults_to_text_witness :
    lowerStr (path_suffix "report.xyz") ≠ ".pdf"
    ∧ lowerStr (path_suffix "report.xyz") ≠ ".csv"
    ∧ lowerStr (path_suffix "report.xyz") ≠ ".xlsx"
    ∧ run_stub LoaderKind.text "report.xyz"
        = Except.ok [CDoc.mk "data" "report.xyz"]
    ∧ ends_with "report.xyz" ".docx" = false
    ∧ ends_with "report.xyz" ".pdf" = false
    ∧ (loader_for "report.xyz" = LoaderKind.text
       ∧ process_document run_stub "report.xyz" = [CDoc.mk "data" "report.xyz"]
       ∧ create_openai_embeddings_loader "report.xyz"
          = Except.error ("Unsupported file type: " ++ "report.xyz")) :=
  ⟨by decide, by decide, by decide, rfl, by decide, by decide,
   document_loader_defaults_to_text run_stub "report.xyz"
     [CDoc.mk "data" "report.xyz"]
     (by decide) (by decide) (by decide) rfl (by decide) (by decide)⟩

/- ========================================================================
   Upload endpoint: `upload_corporate_documents` from src/main.py,
   lines 580-673.

   Control flow: an invalid category raises HTTPException(400) BEFORE the
   `try` block (it propagates as a 400 response).  Inside the `try`, the
   per-file loop first checks `file.size and file.size > MAX_FILE_SIZE`
   and raises HTTPException(413) for an oversized file; then it checks the
   lower-cased extension against the allowed list and `continue`s (skips)
   unsupported files; otherwise it writes the file to disk, chunks and
   indexes it, and records it in `processed_files`.  Crucially, the
   13-line `except Exception as e` clause at the end of the function
   catches EVERY exception raised inside the `try` — including the
   endpoint's own HTTPException(413) — and re-raises it as
   HTTPException(500, "Processing error: " + str(e)), where
   str(HTTPException(413, d)) is "413: " + d.  The model returns the list
   of filenames already saved and indexed before the outcome (disk side
   effects survive the abort) together with the HTTP outcome; the
   megabyte figure of the oversized-file detail message is elided from
   the modelled string. -/

def MAX_FILE_SIZE : Nat := 10485760

def allowed_extensions : List String :=
  [".txt", ".pdf", ".md", ".csv", ".xlsx", ".docx", ".json", ".sql"]

structure UpFile where
  filename : String
  size : Option Nat
deriving DecidableEq

inductive UploadOutcome
  | ok (processed : List String)
  | httpError (status : Nat) (detail : String)
deriving DecidableEq

/-- The `if file.size and file.size > MAX_FILE_SIZE` truthiness test. -/
def oversized (maxSize : Nat) (f : UpFile) : Bool :=
  match f.size with
  | some s => decide (maxSize < s)
  | none => false

/-- The per-file loop of the endpoint: returns the files saved and indexed
    so far and, on an oversized file, the detail of the HTTPException(413)
    it raises (aborting the loop). -/
def upload_loop (maxSize : Nat) :
    List UpFile → List String → List String × Option String
  | [], savedAcc => (savedAcc.reverse, none)
  | f :: fs, savedAcc =>
      if oversized maxSize f then
        (savedAcc.reverse,
         some ("File " ++ f.filename ++ " exceeds maximum size"))
      else if (allowed_extensions.contains
          (lowerStr (path_suffix f.filename))) = false then
        upload_loop maxSize fs savedAcc
      else
        upload_loop maxSize fs (f.filename :: savedAcc)

/-- `upload_corporate_documents(category, files, ...)` (src/main.py lines
    580-673): first component = files saved to disk and indexed (these
    persist even when the request aborts), second = the HTTP outcome. -/
def upload_corporate_documents (category : String) (maxSize : Nat)
    (files : List UpFile) : List String × UploadOutcome :=
  if (["rag", "cag", "mapping"].contains category) = false then
    ([], UploadOutcome.httpError 400 "Invalid document category")
  else
    match upload_loop maxSize files [] with
    | (saved, none) => (saved, UploadOutcome.ok saved)
    | (saved, some msg) =>
        (saved, UploadOutcome.httpError 500 ("Processing error: 413: " ++ msg))

/-- Failing input for C10: a valid file, a skipped unsupported file, an
    oversized file, and a file listed after the oversized one. -/
def filesC10 : List UpFile :=
  [UpFile.mk "a.txt" (some 100),
   UpFile.mk "tool.exe" (some 100),
   UpFile.mk "big.pdf" (some 10485761),
   UpFile.mk "c.txt" (some 100)]

/-- C10: evaluation of the endpoint at the failing input.  The unsupported
    "tool.exe" is skipped and "a.txt" (before the oversized file) is
    saved and indexed; the oversized "big.pdf" aborts the request and
    "c.txt" is never processed — all as the claim says — BUT the response
    is HTTP 500 ("Processing error: 413: ..."), not the HTTP 413 the
    endpoint's own `raise HTTPException(status_code=413, ...)` intends:
    the blanket `except Exception` clause catches that HTTPException and
    re-raises it as a 500. -/
theorem upload_oversized_aborts_as_http_500 :
    upload_corporate_documents "rag" MAX_FILE_SIZE filesC10
      = (["a.txt"],
         UploadOutcome.httpError 500
           "Processing error: 413: File big.pdf exceeds maximum size")
    ∧ (∀ d, (upload_corporate_documents "rag" MAX_FILE_SIZE filesC10).2
        ≠ UploadOutcome.httpError 413 d)
    ∧ "c.txt" ∉ (upload_corporate_documents "rag" MAX_FILE_SIZE filesC10).1
    ∧ "tool.exe" ∉ (upload_corporate_documents "rag" MAX_FILE_SIZE filesC10).1
    ∧ "a.txt" ∈ (upload_corporate_documents "rag" MAX_FILE_SIZE filesC10).1 := by
  have h : upload_corporate_documents "rag" MAX_FILE_SIZE filesC10
      = (["a.txt"],
         UploadOutcome.httpError 500
           "Processing error: 413: File big.pdf exceeds maximum size") := by
    decide
  refine ⟨h, ?_, by decide, by decide, by decide⟩
  intro d hd
  rw [h] at hd
  simp at hd
